import Mathlib

/-!
Verification of the batch-catalog and phi-matrix regularization core of the
BigARTM repository, as shallowly embedded from
`src/artm/core/generation.cc` and `src/artm/regularizer/smooth_sparse_phi.cc`.

Matrix cell values (C floats/doubles) are modelled as rationals; external
collaborators (the disk scanner, the protobuf decoder, the dictionary
collection) are parameters of the embedded operations, mirroring the
interfaces the source consumes.
-/

/-! ## Data model -/

/-- A token identity: a class id and a keyword, as in `artm::core::Token`. -/
structure Token where
  class_id : String
  keyword : String
deriving DecidableEq

/-- One dictionary record; the regularizer reads its `token_value` field. -/
structure DictionaryEntry where
  token_value : ℚ
deriving DecidableEq

/-- A read-only token-to-record lookup table (`artm::core::Dictionary`). -/
structure Dictionary where
  entries : List (Token × DictionaryEntry)
deriving DecidableEq

/-- Dictionary lookup: the first record stored under the given token identity,
mirroring `Dictionary::entry(token)` returning null when absent. -/
def Dictionary.entry (d : Dictionary) (t : Token) : Option DictionaryEntry :=
  (d.entries.find? (fun e => decide (e.1 = t))).map (fun e => e.2)

/-- The phi matrix: topic names, token identities, and a row of cell values per
token (`artm::core::PhiMatrix` as consumed by the regularizer). -/
structure PhiMatrix where
  topic_name : List String
  tokens : List Token
  data : List (List ℚ)
deriving DecidableEq

def PhiMatrix.topic_size (m : PhiMatrix) : Nat := m.topic_name.length

def PhiMatrix.token_size (m : PhiMatrix) : Nat := m.tokens.length

/-- `p_wt.token(token_id)` from the source; out-of-range reads default. -/
def PhiMatrix.token (m : PhiMatrix) (token_id : Nat) : Token :=
  m.tokens.getD token_id ⟨"", ""⟩

/-- `m.get(token_id, topic_id)`: the stored cell value, defaulting to 0 out of
range. -/
def PhiMatrix.get (m : PhiMatrix) (token_id topic_id : Nat) : ℚ :=
  (m.data.getD token_id []).getD topic_id 0

/-- `m.set(token_id, topic_id, v)`: write one cell, leaving everything else in
place (an out-of-range write is a no-op, as `List.set` is). -/
def PhiMatrix.setCell (m : PhiMatrix) (token_id topic_id : Nat) (v : ℚ) : PhiMatrix :=
  { m with data := m.data.set token_id ((m.data.getD token_id []).set topic_id v) }

/-- Length of the row stored for a given token index. -/
def PhiMatrix.rowLen (m : PhiMatrix) (token_id : Nat) : Nat :=
  (m.data.getD token_id []).length

/-- `core::is_member(x, xs)` from protobuf_helpers: membership of a string in a
repeated string field. -/
def is_member (x : String) (xs : List String) : Bool := xs.contains x

/-! ## Exceptions -/

/-- The exception kinds thrown by the embedded code: `InvalidOperation` and
`CorruptedMessageException` from `artm/core/exceptions.h`. -/
inductive ArtmException where
  | InvalidOperation (message : String)
  | CorruptedMessage (message : String)
deriving DecidableEq

/-! ## DiskGeneration (`src/artm/core/generation.cc`) -/

/-- A catalog task: a unique identifier plus the file path of the persisted
batch (`BatchManagerTask`); uuids are modelled as strings. -/
structure BatchManagerTask where
  uuid : String
  file_path : String
deriving DecidableEq

/-- A batch as far as this core observes it: its self-reported `id` and the
per-token class metadata that may be absent until populated. -/
structure Batch where
  id : String
  class_id : List (Option String)
deriving DecidableEq

/-- Modelled from the spec: `BatchHelpers::PopulateClassId` is the external
collaborator that fills in any token class metadata absent from the loaded
payload (spec section 4.1 and section 6); it touches only the class metadata,
not the id. -/
def BatchHelpers.PopulateClassId (b : Batch) : Batch :=
  { b with class_id := b.class_id.map (fun c => some (c.getD "@default_class")) }

/-- The disk-backed, read-only catalog variant (`DiskGeneration`). -/
structure DiskGeneration where
  disk_path_ : String
  generation_ : List BatchManagerTask
deriving DecidableEq

/-- The `DiskGeneration` constructor: scan the directory once (via the external
`BatchHelpers::ListAllBatches`, passed as a parameter) and push every returned
task into the snapshot, in scan order. -/
def DiskGeneration.construct (ListAllBatches : String → List BatchManagerTask)
    (disk_path : String) : DiskGeneration :=
  { disk_path_ := disk_path,
    generation_ := (ListAllBatches disk_path).foldl (fun g b => g ++ [b]) [] }

/-- The exact rejection message built by `DiskGeneration::AddBatch`. -/
def addBatchMessage : String :=
  "ArtmAddBatch() is not allowed with current configuration. " ++
  "Please, set the configuration parameter MasterComponentConfig.disk_path " ++
  "to an empty string in order to enable ArtmAddBatch() operation. " ++
  "Use ArtmSaveBatch() operation to save batches to disk."

/-- `DiskGeneration::AddBatch`: unconditionally throws `InvalidOperation` (the
spec's ConfigurationError) before touching any state; the state component of
the result is the unchanged catalog. -/
def DiskGeneration.AddBatch (g : DiskGeneration) (_batch : Batch) :
    DiskGeneration × Except ArtmException String :=
  (g, Except.error (ArtmException.InvalidOperation addBatchMessage))

/-- `DiskGeneration::RemoveBatch`: never fails and never mutates; it only emits
the non-fatal LOG(ERROR) diagnostic returned here as a string. -/
def DiskGeneration.RemoveBatch (g : DiskGeneration) (_uuid : String) :
    DiskGeneration × String :=
  (g, "Remove batch is not supported in disk generation.")

/-- `DiskGeneration::batch_uuids`: a copy of the snapshot task list. -/
def DiskGeneration.batch_uuids (g : DiskGeneration) : List BatchManagerTask :=
  g.generation_

/-- `DiskGeneration::batch(task)`: load the payload from `task.file_path` via
the external `BatchHelpers::LoadMessage` (a parameter), overwrite its id with
`task.uuid`, populate absent class metadata, and return it. The body reads no
catalog field and writes none, so the state component is the unchanged
catalog. -/
def DiskGeneration.batch (LoadMessage : String → Batch) (g : DiskGeneration)
    (task : BatchManagerTask) : DiskGeneration × Batch :=
  let b := LoadMessage task.file_path
  let b := { b with id := task.uuid }
  (g, BatchHelpers.PopulateClassId b)

/-! ## SmoothSparsePhi regularizer (`src/artm/regularizer/smooth_sparse_phi.cc`) -/

/-- The transform-selection tag carried inside the configuration. -/
structure TransformConfig where
  tag : Nat
deriving DecidableEq

/-- A transform function handle, identified by the configuration it was created
from (`artm::core::TransformFunction`). -/
structure TransformFunction where
  config : Option TransformConfig
deriving DecidableEq

/-- `TransformFunction::create`: the zero-argument overload is modelled as
`create none`. -/
def TransformFunction.create (c : Option TransformConfig) : TransformFunction :=
  ⟨c⟩

/-- Modelled from the spec: the transform function is a stateless per-cell
numeric function selected by a configuration tag, and the only implementation
in scope is the identity default (spec section 1 and section 2), so `apply` is
the identity map on cell values. -/
def TransformFunction.apply (_tf : TransformFunction) (x : ℚ) : ℚ := x

/-- `SmoothSparsePhiConfig`: repeated `topic_name`, repeated `class_id`,
optional `dictionary_name`, optional `transform_config`. -/
structure SmoothSparsePhiConfig where
  topic_name : List String
  class_id : List String
  dictionary_name : Option String
  transform_config : Option TransformConfig
deriving DecidableEq

/-- The wire-level regularizer configuration; the regularizer only reads its
`config` blob. -/
structure RegularizerConfig where
  config : String

/-- The regularizer's state: the stored typed configuration and the derived
transform function. -/
structure SmoothSparsePhi where
  config_ : SmoothSparsePhiConfig
  transform_function_ : TransformFunction
deriving DecidableEq

/-- The `SmoothSparsePhi` constructor: store the configuration and derive the
transform function from its optional transform tag. -/
def SmoothSparsePhi.construct (config : SmoothSparsePhiConfig) : SmoothSparsePhi :=
  { config_ := config,
    transform_function_ :=
      match config.transform_config with
      | some tc => TransformFunction.create (some tc)
      | none => TransformFunction.create none }

/-- The per-topic boolean mask of step 1 of `RegularizePhi`: all topics when
the configured `topic_name` list is empty, else membership of each of
`p_wt`'s topic names in the configured list. -/
def topicsMask (cfg : SmoothSparsePhiConfig) (p_wt : PhiMatrix) : List Bool :=
  if cfg.topic_name.length = 0 then List.replicate p_wt.topic_size true
  else p_wt.topic_name.map (fun t => is_member t cfg.topic_name)

/-- The coefficient computed for one token inside the loop of `RegularizePhi`:
1.0 unless a dictionary is present and the token passes the class check, in
which case the entry's `token_value` if found and 0.0 if not. -/
def tokenCoefficient (cfg : SmoothSparsePhiConfig) (dictionary_ptr : Option Dictionary)
    (token : Token) : ℚ :=
  match dictionary_ptr with
  | none => 1
  | some d =>
    if cfg.class_id.length == 0 || is_member token.class_id cfg.class_id then
      match d.entry token with
      | some e => e.token_value
      | none => 0
    else 1

/-- The body of the inner topic loop of `RegularizePhi`: if the mask selects
the topic, write `coefficient * transform(p_wt(token, topic))` into the result
cell, else leave the result untouched. -/
def writeCell (tf : TransformFunction) (p_wt : PhiMatrix) (mask : List Bool)
    (coefficient : ℚ) (token_id : Nat) (res : PhiMatrix) (topic_id : Nat) : PhiMatrix :=
  if mask.getD topic_id false then
    res.setCell token_id topic_id (coefficient * tf.apply (p_wt.get token_id topic_id))
  else res

/-- The body of the outer token loop of `RegularizePhi`: compute the token's
coefficient, skip the token entirely when a class filter is configured and the
token's class is not a member, and otherwise run the inner topic loop. -/
def processToken (tf : TransformFunction) (cfg : SmoothSparsePhiConfig)
    (dictionary_ptr : Option Dictionary) (mask : List Bool) (p_wt : PhiMatrix)
    (result : PhiMatrix) (token_id : Nat) : PhiMatrix :=
  let token := p_wt.token token_id
  let coefficient := tokenCoefficient cfg dictionary_ptr token
  if !(cfg.class_id.length == 0) && !(is_member token.class_id cfg.class_id) then result
  else
    (List.range p_wt.topic_size).foldl
      (writeCell tf p_wt mask coefficient token_id) result

/-- `SmoothSparsePhi::RegularizePhi`: resolve the mask, the class mode and the
dictionary, then run the token loop over `result`; the dictionary collection
of the base class is a lookup parameter, and `n_wt` is accepted but never
read, exactly as in the source. Returns the updated result and the success
flag. -/
def SmoothSparsePhi.RegularizePhi (reg : SmoothSparsePhi)
    (dicts : String → Option Dictionary) (p_wt _n_wt : PhiMatrix)
    (result : PhiMatrix) : PhiMatrix × Bool :=
  let mask := topicsMask reg.config_ p_wt
  let dictionary_ptr : Option Dictionary :=
    match reg.config_.dictionary_name with
    | some name => dicts name
    | none => none
  ((List.range p_wt.token_size).foldl
      (processToken reg.transform_function_ reg.config_ dictionary_ptr mask p_wt)
      result,
   true)

/-- `SmoothSparsePhi::topics_to_regularize`: the raw configured topic list. -/
def SmoothSparsePhi.topics_to_regularize (reg : SmoothSparsePhi) : List String :=
  reg.config_.topic_name

/-- `SmoothSparsePhi::class_ids_to_regularize`: the raw configured class list. -/
def SmoothSparsePhi.class_ids_to_regularize (reg : SmoothSparsePhi) : List String :=
  reg.config_.class_id

/-- `SmoothSparsePhi::Reconfigure`: parse the blob with the external protobuf
decoder (`ParseFromString`, a parameter returning none on malformed bytes);
on failure throw `CorruptedMessageException` leaving the state untouched, on
success replace the stored configuration and re-derive the transform
function. -/
def SmoothSparsePhi.Reconfigure (ParseFromString : String → Option SmoothSparsePhiConfig)
    (reg : SmoothSparsePhi) (config : RegularizerConfig) :
    SmoothSparsePhi × Except ArtmException Bool :=
  match ParseFromString config.config with
  | none =>
    (reg, Except.error (ArtmException.CorruptedMessage
      "Unable to parse SmoothSparsePhiConfig from RegularizerConfig.config"))
  | some regularizer_config =>
    ({ config_ := regularizer_config,
       transform_function_ :=
         match regularizer_config.transform_config with
         | some tc => TransformFunction.create (some tc)
         | none => TransformFunction.create none },
     Except.ok true)

/-! ## Helper lemmas -/

/-- Folding push_back over a list appends it to the accumulator. -/
theorem foldl_push_back {α : Type} (l acc : List α) :
    l.foldl (fun g b => g ++ [b]) acc = acc ++ l := by
  induction l generalizing acc with
  | nil => simp
  | cons a t ih => simp [ih]

/-- The constructed catalog snapshot is exactly the scan result, in order. -/
theorem construct_batch_uuids (ListAllBatches : String → List BatchManagerTask)
    (disk_path : String) :
    (DiskGeneration.construct ListAllBatches disk_path).batch_uuids =
      ListAllBatches disk_path := by
  simp [DiskGeneration.construct, DiskGeneration.batch_uuids, foldl_push_back]

/-- A fold of `batch` (load) calls leaves the catalog state unchanged. -/
theorem foldl_batch_state (LoadMessage : String → Batch) (loads : List BatchManagerTask)
    (g : DiskGeneration) :
    loads.foldl (fun s t => (DiskGeneration.batch LoadMessage s t).1) g = g := by
  induction loads generalizing g with
  | nil => rfl
  | cons a t ih => exact ih g

/-! ## Claim theorems: catalog -/

/-- C3: for every task held by a Generation, `load(T)` returns a Batch whose id
equals the task's catalog identifier, whatever self-reported id the payload
decoded from `task.file_path` carried before the stamp. -/
theorem batch_id_equals_task_uuid (LoadMessage : String → Batch)
    (g : DiskGeneration) (task : BatchManagerTask) :
    (DiskGeneration.batch LoadMessage g task).2.id = task.uuid := rfl

/-- C4: `AddBatch` on the disk-backed Generation always fails with the
InvalidOperation (ConfigurationError) whose message tells the caller to save
batches to disk out-of-band via ArtmSaveBatch() and to use an empty disk_path
for programmatic additions, and it never changes the `batch_uuids` snapshot. -/
theorem addBatch_always_fails (g : DiskGeneration) (b : Batch) :
    g.AddBatch b =
      (g, Except.error (ArtmException.InvalidOperation addBatchMessage)) ∧
    (g.AddBatch b).1.batch_uuids = g.batch_uuids ∧
    addBatchMessage =
      "ArtmAddBatch() is not allowed with current configuration. " ++
      ("Please, set the configuration parameter MasterComponentConfig.disk_path " ++
       ("to an empty string in order to enable ArtmAddBatch() operation. " ++
        "Use ArtmSaveBatch() operation to save batches to disk.")) :=
  ⟨rfl, rfl, rfl⟩

/-- C7: `RemoveBatch` on the disk-backed Generation never fails (its type has
no error outcome), performs no catalog mutation, and only emits the non-fatal
diagnostic string. -/
theorem removeBatch_is_noop (g : DiskGeneration) (uuid : String) :
    g.RemoveBatch uuid =
      (g, "Remove batch is not supported in disk generation.") ∧
    (g.RemoveBatch uuid).1.batch_uuids = g.batch_uuids :=
  ⟨rfl, rfl⟩

/-- C6: a directory whose scan yields K tasks with pairwise-unique identifiers
produces a Generation with exactly those K tasks in scan order, and the
snapshot returned by `batch_uuids` is unchanged by any number of interleaved
`batch` (load) calls. -/
theorem generation_snapshot (ListAllBatches : String → List BatchManagerTask)
    (disk_path : String) (K : Nat)
    (hK : (ListAllBatches disk_path).length = K)
    (hvalid : ((ListAllBatches disk_path).map BatchManagerTask.uuid).Nodup)
    (loads : List BatchManagerTask) (LoadMessage : String → Batch) :
    (DiskGeneration.construct ListAllBatches disk_path).batch_uuids.length = K ∧
    ((DiskGeneration.construct ListAllBatches disk_path).batch_uuids.map
      BatchManagerTask.uuid).Nodup ∧
    (DiskGeneration.construct ListAllBatches disk_path).batch_uuids =
      ListAllBatches disk_path ∧
    (loads.foldl (fun s t => (DiskGeneration.batch LoadMessage s t).1)
        (DiskGeneration.construct ListAllBatches disk_path)).batch_uuids =
      (DiskGeneration.construct ListAllBatches disk_path).batch_uuids := by
  refine ⟨?_, ?_, construct_batch_uuids _ _, ?_⟩
  · rw [construct_batch_uuids]; exact hK
  · rw [construct_batch_uuids]; exact hvalid
  · rw [foldl_batch_state]

/-- Concrete instantiation of the C6 snapshot theorem: a scan returning two
tasks A and B, with two load calls interleaved. -/
theorem generation_snapshot_witness :
    ((fun _ : String => [BatchManagerTask.mk "A" "/d/a.bin",
                         BatchManagerTask.mk "B" "/d/b.bin"]) "/d").length = 2 ∧
    (((fun _ : String => [BatchManagerTask.mk "A" "/d/a.bin",
                          BatchManagerTask.mk "B" "/d/b.bin"]) "/d").map
      BatchManagerTask.uuid).Nodup ∧
    (DiskGeneration.construct
      (fun _ => [BatchManagerTask.mk "A" "/d/a.bin",
                 BatchManagerTask.mk "B" "/d/b.bin"]) "/d").batch_uuids.length = 2 := by
  have h := generation_snapshot
    (fun _ => [BatchManagerTask.mk "A" "/d/a.bin", BatchManagerTask.mk "B" "/d/b.bin"])
    "/d" 2 (by decide) (by decide)
    [BatchManagerTask.mk "A" "/d/a.bin", BatchManagerTask.mk "B" "/d/b.bin"]
    (fun _ => Batch.mk "stale" [none])
  exact ⟨by decide, by decide, h.1⟩

/-! ## Claim theorems: regularizer reconfiguration -/

/-- C2: `Reconfigure` is atomic. When the blob fails to parse it returns the
CorruptedMessage error and the state component is exactly the prior regularizer
state, configuration and transform function untouched; when the blob parses,
the state is replaced by the freshly constructed one. -/
theorem reconfigure_atomic (ParseFromString : String → Option SmoothSparsePhiConfig)
    (reg : SmoothSparsePhi) (config : RegularizerConfig) :
    (ParseFromString config.config = none →
      SmoothSparsePhi.Reconfigure ParseFromString reg config =
        (reg, Except.error (ArtmException.CorruptedMessage
          "Unable to parse SmoothSparsePhiConfig from RegularizerConfig.config"))) ∧
    (∀ rc : SmoothSparsePhiConfig, ParseFromString config.config = some rc →
      SmoothSparsePhi.Reconfigure ParseFromString reg config =
        (SmoothSparsePhi.construct rc, Except.ok true)) := by
  constructor
  · intro h
    simp [SmoothSparsePhi.Reconfigure, h]
  · intro rc h
    simp [SmoothSparsePhi.Reconfigure, h, SmoothSparsePhi.construct]

/-- A sample regularizer configuration used by concrete instantiations. -/
def sampleConfig : SmoothSparsePhiConfig := ⟨["t1"], [], none, none⟩

/-- A second sample configuration, with every optional field populated. -/
def sampleConfig2 : SmoothSparsePhiConfig := ⟨[], ["c"], some "dict", some ⟨1⟩⟩

/-- A sample regularizer state. -/
def sampleReg : SmoothSparsePhi := SmoothSparsePhi.construct sampleConfig

/-- Concrete instantiation of the C2 atomicity theorem: a decoder rejecting the
blob leaves the sample state intact, and one accepting it installs the parsed
configuration. -/
theorem reconfigure_atomic_witness :
    SmoothSparsePhi.Reconfigure (fun _ => none) sampleReg ⟨"junk"⟩ =
      (sampleReg, Except.error (ArtmException.CorruptedMessage
        "Unable to parse SmoothSparsePhiConfig from RegularizerConfig.config")) ∧
    SmoothSparsePhi.Reconfigure (fun _ => some sampleConfig2) sampleReg ⟨"ok"⟩ =
      (SmoothSparsePhi.construct sampleConfig2, Except.ok true) :=
  ⟨(reconfigure_atomic (fun _ => none) sampleReg ⟨"junk"⟩).1 rfl,
   (reconfigure_atomic (fun _ => some sampleConfig2) sampleReg ⟨"ok"⟩).2 sampleConfig2 rfl⟩

/-! ## Claim theorems: regularizer pass, simple -/

/-- C9: the output of `RegularizePhi` never depends on the `n_wt` argument:
for any two values of it, the result contents and the return flag coincide. -/
theorem regularizePhi_ignores_n_wt (reg : SmoothSparsePhi)
    (dicts : String → Option Dictionary) (p_wt n_wt1 n_wt2 result : PhiMatrix) :
    reg.RegularizePhi dicts p_wt n_wt1 result =
      reg.RegularizePhi dicts p_wt n_wt2 result := rfl

/-! ## Cell-level lemmas about `setCell` and `get` -/

/-- Writing at one index of a list leaves reads at a different index alone. -/
theorem getD_set_ne {α : Type} (l : List α) (i j : Nat) (v d : α) (h : i ≠ j) :
    (l.set i v).getD j d = l.getD j d := by
  rw [List.getD_eq_getElem?_getD, List.getD_eq_getElem?_getD, List.getElem?_set_ne h]

/-- Reading back an in-range write returns the written element. -/
theorem getD_set_self {α : Type} (l : List α) (i : Nat) (v d : α)
    (h : i < l.length) :
    (l.set i v).getD i d = v := by
  rw [List.getD_eq_getElem?_getD, List.getElem?_set_eq_of_lt v h]
  rfl

/-- A cell write does not change any other cell of the matrix. -/
theorem get_setCell_ne (m : PhiMatrix) (i j i2 j2 : Nat) (v : ℚ)
    (h : ¬(i2 = i ∧ j2 = j)) :
    (m.setCell i j v).get i2 j2 = m.get i2 j2 := by
  unfold PhiMatrix.setCell PhiMatrix.get
  by_cases hi : i = i2
  · subst hi
    have hj : j ≠ j2 := fun hj => h ⟨rfl, hj.symm⟩
    by_cases hlen : i < m.data.length
    · rw [getD_set_self _ _ _ _ hlen, getD_set_ne _ _ _ _ _ hj]
    · rw [List.set_eq_of_length_le (Nat.le_of_not_lt hlen)]
  · rw [getD_set_ne _ _ _ _ _ hi]

/-- An in-range cell write is read back as the written value. -/
theorem get_setCell_self (m : PhiMatrix) (i j : Nat) (v : ℚ)
    (hlen : i < m.data.length) (hrow : j < m.rowLen i) :
    (m.setCell i j v).get i j = v := by
  unfold PhiMatrix.setCell PhiMatrix.get
  rw [getD_set_self _ _ _ _ hlen, getD_set_self _ _ _ _ hrow]

/-- Cell writes preserve the number of rows. -/
theorem setCell_data_length (m : PhiMatrix) (i j : Nat) (v : ℚ) :
    (m.setCell i j v).data.length = m.data.length := by
  simp [PhiMatrix.setCell]

/-- Cell writes preserve the length of every row. -/
theorem setCell_rowLen (m : PhiMatrix) (i j : Nat) (v : ℚ) (k : Nat) :
    (m.setCell i j v).rowLen k = m.rowLen k := by
  unfold PhiMatrix.rowLen PhiMatrix.setCell
  by_cases hk : i = k
  · subst hk
    by_cases hlen : i < m.data.length
    · rw [getD_set_self _ _ _ _ hlen, List.length_set]
    · rw [List.set_eq_of_length_le (Nat.le_of_not_lt hlen)]
  · rw [getD_set_ne _ _ _ _ _ hk]

/-! ## Inner topic loop of `RegularizePhi` -/

/-- One step of the inner loop preserves the number of rows. -/
theorem writeCell_data_length (tf : TransformFunction) (p : PhiMatrix)
    (mask : List Bool) (c : ℚ) (tid : Nat) (res : PhiMatrix) (t : Nat) :
    (writeCell tf p mask c tid res t).data.length = res.data.length := by
  unfold writeCell
  by_cases hm : mask.getD t false = true
  · rw [if_pos hm, setCell_data_length]
  · rw [if_neg hm]

/-- One step of the inner loop preserves every row length. -/
theorem writeCell_rowLen (tf : TransformFunction) (p : PhiMatrix)
    (mask : List Bool) (c : ℚ) (tid : Nat) (res : PhiMatrix) (t k : Nat) :
    (writeCell tf p mask c tid res t).rowLen k = res.rowLen k := by
  unfold writeCell
  by_cases hm : mask.getD t false = true
  · rw [if_pos hm, setCell_rowLen]
  · rw [if_neg hm]

/-- Frame property of the inner topic loop: a cell of another row, or whose
topic is not iterated, or whose topic the mask rejects, keeps its value. -/
theorem foldl_writeCell_frame (tf : TransformFunction) (p : PhiMatrix)
    (mask : List Bool) (c : ℚ) (tid : Nat) (ts : List Nat) (res : PhiMatrix)
    (i j : Nat) (h : ¬(i = tid ∧ j ∈ ts ∧ mask.getD j false = true)) :
    (ts.foldl (writeCell tf p mask c tid) res).get i j = res.get i j := by
  induction ts generalizing res with
  | nil => rfl
  | cons t ts ih =>
    rw [List.foldl_cons,
      ih _ (fun hc => h ⟨hc.1, List.mem_cons_of_mem t hc.2.1, hc.2.2⟩)]
    unfold writeCell
    by_cases hm : mask.getD t false = true
    · rw [if_pos hm]
      apply get_setCell_ne
      intro hc
      exact h ⟨hc.1, hc.2 ▸ List.mem_cons_self t ts, hc.2 ▸ hm⟩
    · rw [if_neg hm]

/-- Written-value property of the inner topic loop: an iterated, mask-selected,
in-range topic of the processed row ends holding
`coefficient * transform(p_wt(token, topic))`. -/
theorem foldl_writeCell_written (tf : TransformFunction) (p : PhiMatrix)
    (mask : List Bool) (c : ℚ) (tid : Nat) (ts : List Nat) (res : PhiMatrix)
    (j : Nat) (hj : j ∈ ts) (hm : mask.getD j false = true)
    (hlen : tid < res.data.length) (hrow : j < res.rowLen tid) :
    (ts.foldl (writeCell tf p mask c tid) res).get tid j =
      c * tf.apply (p.get tid j) := by
  induction ts generalizing res with
  | nil => cases hj
  | cons t ts ih =>
    rw [List.foldl_cons]
    by_cases hjts : j ∈ ts
    · exact ih _ hjts
        (by rw [writeCell_data_length]; exact hlen)
        (by rw [writeCell_rowLen]; exact hrow)
    · have hjt : j = t := by
        rcases List.mem_cons.mp hj with h1 | h1
        · exact h1
        · exact absurd h1 hjts
      subst hjt
      rw [foldl_writeCell_frame _ _ _ _ _ _ _ _ _ (fun hc => hjts hc.2.1)]
      unfold writeCell
      rw [if_pos hm]
      exact get_setCell_self _ _ _ _ hlen hrow

/-! ## Outer token loop of `RegularizePhi` -/

/-- The class check of the token loop: true when no class filter is configured
or the token's class is a member of it. -/
def classPass (cfg : SmoothSparsePhiConfig) (token : Token) : Bool :=
  cfg.class_id.length == 0 || is_member token.class_id cfg.class_id

/-- The skip condition of the token loop is the negation of `classPass`, so the
loop body is the inner fold exactly when the token passes the class check. -/
theorem processToken_eq (tf : TransformFunction) (cfg : SmoothSparsePhiConfig)
    (dictionary_ptr : Option Dictionary) (mask : List Bool) (p : PhiMatrix)
    (res : PhiMatrix) (tid : Nat) :
    processToken tf cfg dictionary_ptr mask p res tid =
      if classPass cfg (p.token tid) = true then
        (List.range p.topic_size).foldl
          (writeCell tf p mask (tokenCoefficient cfg dictionary_ptr (p.token tid)) tid) res
      else res := by
  unfold processToken classPass
  cases h1 : (cfg.class_id.length == 0) <;>
    cases h2 : is_member (p.token tid).class_id cfg.class_id <;>
    simp [h1, h2]

/-- One step of the token loop preserves the number of rows. -/
theorem processToken_data_length (tf : TransformFunction)
    (cfg : SmoothSparsePhiConfig) (dict : Option Dictionary) (mask : List Bool)
    (p : PhiMatrix) (res : PhiMatrix) (tid : Nat) :
    (processToken tf cfg dict mask p res tid).data.length = res.data.length := by
  rw [processToken_eq]
  by_cases h : classPass cfg (p.token tid) = true
  · rw [if_pos h]
    generalize List.range p.topic_size = ts
    induction ts generalizing res with
    | nil => rfl
    | cons t ts ih => rw [List.foldl_cons, ih, writeCell_data_length]
  · rw [if_neg h]

/-- One step of the token loop preserves every row length. -/
theorem processToken_rowLen (tf : TransformFunction)
    (cfg : SmoothSparsePhiConfig) (dict : Option Dictionary) (mask : List Bool)
    (p : PhiMatrix) (res : PhiMatrix) (tid k : Nat) :
    (processToken tf cfg dict mask p res tid).rowLen k = res.rowLen k := by
  rw [processToken_eq]
  by_cases h : classPass cfg (p.token tid) = true
  · rw [if_pos h]
    generalize List.range p.topic_size = ts
    induction ts generalizing res with
    | nil => rfl
    | cons t ts ih => rw [List.foldl_cons, ih, writeCell_rowLen]
  · rw [if_neg h]

/-- Frame property of the token loop: a cell whose token is not iterated, or is
skipped by the class filter, or whose topic is out of range or rejected by the
mask, keeps its value. -/
theorem foldl_processToken_frame (tf : TransformFunction)
    (cfg : SmoothSparsePhiConfig) (dict : Option Dictionary) (mask : List Bool)
    (p : PhiMatrix) (ts : List Nat) (res : PhiMatrix) (i j : Nat)
    (h : ¬(i ∈ ts ∧ classPass cfg (p.token i) = true ∧ j < p.topic_size ∧
           mask.getD j false = true)) :
    (ts.foldl (processToken tf cfg dict mask p) res).get i j = res.get i j := by
  induction ts generalizing res with
  | nil => rfl
  | cons t ts ih =>
    rw [List.foldl_cons,
      ih _ (fun hc => h ⟨List.mem_cons_of_mem t hc.1, hc.2⟩)]
    rw [processToken_eq]
    by_cases hcp : classPass cfg (p.token t) = true
    · rw [if_pos hcp]
      apply foldl_writeCell_frame
      intro hc
      exact h ⟨hc.1 ▸ List.mem_cons_self t ts, hc.1 ▸ hcp,
        List.mem_range.mp hc.2.1, hc.2.2⟩
    · rw [if_neg hcp]

/-- Written-value property of the token loop: an iterated token passing the
class check gets, at every in-range mask-selected topic of its row, the value
`coefficient * transform(p_wt(token, topic))`. -/
theorem foldl_processToken_written (tf : TransformFunction)
    (cfg : SmoothSparsePhiConfig) (dict : Option Dictionary) (mask : List Bool)
    (p : PhiMatrix) (ts : List Nat) (res : PhiMatrix) (i j : Nat)
    (hi : i ∈ ts) (hcp : classPass cfg (p.token i) = true)
    (hj : j < p.topic_size) (hm : mask.getD j false = true)
    (hlen : i < res.data.length) (hrow : j < res.rowLen i) :
    (ts.foldl (processToken tf cfg dict mask p) res).get i j =
      tokenCoefficient cfg dict (p.token i) * tf.apply (p.get i j) := by
  induction ts generalizing res with
  | nil => cases hi
  | cons t ts ih =>
    rw [List.foldl_cons]
    by_cases hits : i ∈ ts
    · exact ih _ hits
        (by rw [processToken_data_length]; exact hlen)
        (by rw [processToken_rowLen]; exact hrow)
    · have hit : i = t := by
        rcases List.mem_cons.mp hi with h1 | h1
        · exact h1
        · exact absurd h1 hits
      subst hit
      rw [foldl_processToken_frame _ _ _ _ _ _ _ _ _ (fun hc => hits hc.1)]
      rw [processToken_eq, if_pos hcp]
      exact foldl_writeCell_written _ _ _ _ _ _ _ _
        (List.mem_range.mpr hj) hm hlen hrow

/-! ## Claim theorems: regularizer pass -/

/-- The dictionary handle resolved at the top of `RegularizePhi`: the named
dictionary when `dictionary_name` is set, else none. -/
def resolvedDictionary (cfg : SmoothSparsePhiConfig)
    (dicts : String → Option Dictionary) : Option Dictionary :=
  match cfg.dictionary_name with
  | some name => dicts name
  | none => none

/-- `RegularizePhi` unfolded into its token-loop fold. -/
theorem regularizePhi_eq (reg : SmoothSparsePhi)
    (dicts : String → Option Dictionary) (p_wt n_wt res : PhiMatrix) :
    reg.RegularizePhi dicts p_wt n_wt res =
      ((List.range p_wt.token_size).foldl
        (processToken reg.transform_function_ reg.config_
          (resolvedDictionary reg.config_ dicts) (topicsMask reg.config_ p_wt)
          p_wt) res,
       true) := rfl

/-- C1: with a configured and resolved dictionary, a token passing the class
filter (or with no class filter configured) but absent from the dictionary gets
coefficient 0.0, so its result cell is 0 at every mask-selected topic, whatever
value `p_wt` holds there. -/
theorem missing_dictionary_entry_suppresses_token (reg : SmoothSparsePhi)
    (dicts : String → Option Dictionary) (p_wt n_wt res : PhiMatrix)
    (name : String) (d : Dictionary) (X t : Nat)
    (hname : reg.config_.dictionary_name = some name)
    (hdict : dicts name = some d)
    (hclass : reg.config_.class_id = [] ∨
      is_member (p_wt.token X).class_id reg.config_.class_id = true)
    (hentry : d.entry (p_wt.token X) = none)
    (hX : X < p_wt.token_size) (ht : t < p_wt.topic_size)
    (hmask : (topicsMask reg.config_ p_wt).getD t false = true)
    (hlen : X < res.data.length) (hrow : t < res.rowLen X) :
    ((reg.RegularizePhi dicts p_wt n_wt res).1).get X t = 0 := by
  have hres : resolvedDictionary reg.config_ dicts = some d := by
    unfold resolvedDictionary
    rw [hname]
    exact hdict
  have hcp : classPass reg.config_ (p_wt.token X) = true := by
    unfold classPass
    rcases hclass with h | h
    · rw [h]
      rfl
    · rw [h]
      simp
  have hcoef : tokenCoefficient reg.config_ (resolvedDictionary reg.config_ dicts)
      (p_wt.token X) = 0 := by
    unfold classPass at hcp
    simp [tokenCoefficient, hres, hcp, hentry]
  rw [regularizePhi_eq]
  show ((List.range p_wt.token_size).foldl
      (processToken reg.transform_function_ reg.config_
        (resolvedDictionary reg.config_ dicts) (topicsMask reg.config_ p_wt)
        p_wt) res).get X t = 0
  rw [foldl_processToken_written _ _ _ _ _ _ _ _ _
    (List.mem_range.mpr hX) hcp ht hmask hlen hrow, hcoef, zero_mul]

/-- Concrete instantiation of the C1 suppression theorem: token "apple" passes
the (empty) class filter, is absent from the resolved dictionary, has
`p_wt` value 2 at the selected topic t1, and its result cell becomes 0. -/
theorem missing_dictionary_entry_suppresses_token_witness :
    ((SmoothSparsePhi.RegularizePhi
        (SmoothSparsePhi.construct ⟨["t1", "t3"], [], some "dict", none⟩)
        (fun nm => if nm = "dict" then
          some ⟨[(⟨"c1", "pear"⟩, ⟨2⟩)]⟩ else none)
        ⟨["t0", "t1", "t2", "t3"],
         [⟨"c1", "apple"⟩, ⟨"c1", "pear"⟩], [[1, 2, 3, 4], [5, 6, 7, 8]]⟩
        ⟨["t0", "t1", "t2", "t3"],
         [⟨"c1", "apple"⟩, ⟨"c1", "pear"⟩], [[1, 2, 3, 4], [5, 6, 7, 8]]⟩
        ⟨["t0", "t1", "t2", "t3"],
         [⟨"c1", "apple"⟩, ⟨"c1", "pear"⟩],
         [[9, 9, 9, 9], [9, 9, 9, 9]]⟩).1).get 0 1 = 0 :=
  missing_dictionary_entry_suppresses_token _ _ _ _ _ "dict"
    ⟨[(⟨"c1", "pear"⟩, ⟨2⟩)]⟩ 0 1
    (by decide) (by decide) (Or.inl (by decide)) (by decide) (by decide)
    (by decide) (by decide) (by decide) (by decide)

/-- C5: every result cell whose topic the configured mask rejects, and every
cell in the row of a token skipped by the class filter, retains its prior
value. -/
theorem regularizePhi_frame (reg : SmoothSparsePhi)
    (dicts : String → Option Dictionary) (p_wt n_wt res : PhiMatrix) (i j : Nat)
    (h : (topicsMask reg.config_ p_wt).getD j false = false ∨
         (reg.config_.class_id ≠ [] ∧
          is_member (p_wt.token i).class_id reg.config_.class_id = false)) :
    ((reg.RegularizePhi dicts p_wt n_wt res).1).get i j = res.get i j := by
  rw [regularizePhi_eq]
  show ((List.range p_wt.token_size).foldl
      (processToken reg.transform_function_ reg.config_
        (resolvedDictionary reg.config_ dicts) (topicsMask reg.config_ p_wt)
        p_wt) res).get i j = res.get i j
  apply foldl_processToken_frame
  rintro ⟨hmem, hcp, hjlt, hmask⟩
  rcases h with h1 | ⟨hne, hnm⟩
  · rw [h1] at hmask
    cases hmask
  · unfold classPass at hcp
    rw [hnm] at hcp
    simp at hcp
    exact hne hcp

/-- Concrete instantiation of the C5 frame theorem: with topics t0..t3 and a
mask selecting t1 and t3 only, the result cell at column t2 of a token's row
keeps its prior value 9. -/
theorem regularizePhi_frame_witness :
    ((SmoothSparsePhi.RegularizePhi
        (SmoothSparsePhi.construct ⟨["t1", "t3"], [], some "dict", none⟩)
        (fun nm => if nm = "dict" then
          some ⟨[(⟨"c1", "pear"⟩, ⟨2⟩)]⟩ else none)
        ⟨["t0", "t1", "t2", "t3"],
         [⟨"c1", "apple"⟩, ⟨"c1", "pear"⟩], [[1, 2, 3, 4], [5, 6, 7, 8]]⟩
        ⟨["t0", "t1", "t2", "t3"],
         [⟨"c1", "apple"⟩, ⟨"c1", "pear"⟩], [[1, 2, 3, 4], [5, 6, 7, 8]]⟩
        ⟨["t0", "t1", "t2", "t3"],
         [⟨"c1", "apple"⟩, ⟨"c1", "pear"⟩],
         [[9, 9, 9, 9], [9, 9, 9, 9]]⟩).1).get 1 2 = 9 :=
  (regularizePhi_frame _ _ _ _ _ 1 2 (Or.inl (by decide))).trans (by decide)

/-- C8: the regularization pass is deterministic — with a fixed configuration
and fixed input matrices, two calls from equal result states produce equal
outputs — and every call returns the success flag; there is no in-loop failure
path. -/
theorem regularizePhi_deterministic (reg : SmoothSparsePhi)
    (dicts : String → Option Dictionary) (p_wt n_wt res1 res2 : PhiMatrix)
    (h : res1 = res2) :
    reg.RegularizePhi dicts p_wt n_wt res1 =
      reg.RegularizePhi dicts p_wt n_wt res2 ∧
    (reg.RegularizePhi dicts p_wt n_wt res1).2 = true :=
  ⟨by rw [h], rfl⟩

/-- Concrete instantiation of the C8 determinism theorem. -/
theorem regularizePhi_deterministic_witness :
    SmoothSparsePhi.RegularizePhi
        (SmoothSparsePhi.construct ⟨["t1", "t3"], [], some "dict", none⟩)
        (fun nm => if nm = "dict" then
          some ⟨[(⟨"c1", "pear"⟩, ⟨2⟩)]⟩ else none)
        ⟨["t0", "t1", "t2", "t3"],
         [⟨"c1", "apple"⟩, ⟨"c1", "pear"⟩], [[1, 2, 3, 4], [5, 6, 7, 8]]⟩
        ⟨["t0", "t1", "t2", "t3"],
         [⟨"c1", "apple"⟩, ⟨"c1", "pear"⟩], [[1, 2, 3, 4], [5, 6, 7, 8]]⟩
        ⟨["t0", "t1", "t2", "t3"],
         [⟨"c1", "apple"⟩, ⟨"c1", "pear"⟩], [[9, 9, 9, 9], [9, 9, 9, 9]]⟩ =
      SmoothSparsePhi.RegularizePhi
        (SmoothSparsePhi.construct ⟨["t1", "t3"], [], some "dict", none⟩)
        (fun nm => if nm = "dict" then
          some ⟨[(⟨"c1", "pear"⟩, ⟨2⟩)]⟩ else none)
        ⟨["t0", "t1", "t2", "t3"],
         [⟨"c1", "apple"⟩, ⟨"c1", "pear"⟩], [[1, 2, 3, 4], [5, 6, 7, 8]]⟩
        ⟨["t0", "t1", "t2", "t3"],
         [⟨"c1", "apple"⟩, ⟨"c1", "pear"⟩], [[1, 2, 3, 4], [5, 6, 7, 8]]⟩
        ⟨["t0", "t1", "t2", "t3"],
         [⟨"c1", "apple"⟩, ⟨"c1", "pear"⟩], [[9, 9, 9, 9], [9, 9, 9, 9]]⟩ ∧
    (SmoothSparsePhi.RegularizePhi
        (SmoothSparsePhi.construct ⟨["t1", "t3"], [], some "dict", none⟩)
        (fun nm => if nm = "dict" then
          some ⟨[(⟨"c1", "pear"⟩, ⟨2⟩)]⟩ else none)
        ⟨["t0", "t1", "t2", "t3"],
         [⟨"c1", "apple"⟩, ⟨"c1", "pear"⟩], [[1, 2, 3, 4], [5, 6, 7, 8]]⟩
        ⟨["t0", "t1", "t2", "t3"],
         [⟨"c1", "apple"⟩, ⟨"c1", "pear"⟩], [[1, 2, 3, 4], [5, 6, 7, 8]]⟩
        ⟨["t0", "t1", "t2", "t3"],
         [⟨"c1", "apple"⟩, ⟨"c1", "pear"⟩],
         [[9, 9, 9, 9], [9, 9, 9, 9]]⟩).2 = true :=
  regularizePhi_deterministic _ _ _ _ _ _ rfl

/-- C10: when `dictionary_name` is configured but the lookup resolves to no
dictionary, the pass returns success and behaves exactly as if no dictionary
were configured: same state, same result, every class-passing token keeping
coefficient 1.0. -/
theorem unresolved_dictionary_ignored (reg : SmoothSparsePhi)
    (dicts : String → Option Dictionary) (p_wt n_wt res : PhiMatrix)
    (name : String)
    (hname : reg.config_.dictionary_name = some name)
    (hmiss : dicts name = none) :
    reg.RegularizePhi dicts p_wt n_wt res =
      SmoothSparsePhi.RegularizePhi
        ⟨{ reg.config_ with dictionary_name := none }, reg.transform_function_⟩
        dicts p_wt n_wt res ∧
    (reg.RegularizePhi dicts p_wt n_wt res).2 = true := by
  constructor
  · rw [regularizePhi_eq, regularizePhi_eq]
    have h1 : resolvedDictionary reg.config_ dicts = none := by
      unfold resolvedDictionary
      rw [hname]
      exact hmiss
    rw [h1]
    rfl
  · rfl

/-- Concrete instantiation of the C10 theorem: a configured dictionary name
that the collection does not resolve. -/
theorem unresolved_dictionary_ignored_witness :
    SmoothSparsePhi.RegularizePhi
        (SmoothSparsePhi.construct ⟨[], [], some "nodict", none⟩)
        (fun nm => if nm = "dict" then
          some ⟨[(⟨"c1", "pear"⟩, ⟨2⟩)]⟩ else none)
        ⟨["t0", "t1", "t2", "t3"],
         [⟨"c1", "apple"⟩, ⟨"c1", "pear"⟩], [[1, 2, 3, 4], [5, 6, 7, 8]]⟩
        ⟨["t0", "t1", "t2", "t3"],
         [⟨"c1", "apple"⟩, ⟨"c1", "pear"⟩], [[1, 2, 3, 4], [5, 6, 7, 8]]⟩
        ⟨["t0", "t1", "t2", "t3"],
         [⟨"c1", "apple"⟩, ⟨"c1", "pear"⟩], [[9, 9, 9, 9], [9, 9, 9, 9]]⟩ =
      SmoothSparsePhi.RegularizePhi
        ⟨{ (SmoothSparsePhi.construct ⟨[], [], some "nodict", none⟩).config_ with
            dictionary_name := none },
          (SmoothSparsePhi.construct ⟨[], [], some "nodict", none⟩).transform_function_⟩
        (fun nm => if nm = "dict" then
          some ⟨[(⟨"c1", "pear"⟩, ⟨2⟩)]⟩ else none)
        ⟨["t0", "t1", "t2", "t3"],
         [⟨"c1", "apple"⟩, ⟨"c1", "pear"⟩], [[1, 2, 3, 4], [5, 6, 7, 8]]⟩
        ⟨["t0", "t1", "t2", "t3"],
         [⟨"c1", "apple"⟩, ⟨"c1", "pear"⟩], [[1, 2, 3, 4], [5, 6, 7, 8]]⟩
        ⟨["t0", "t1", "t2", "t3"],
         [⟨"c1", "apple"⟩, ⟨"c1", "pear"⟩], [[9, 9, 9, 9], [9, 9, 9, 9]]⟩ ∧
    (SmoothSparsePhi.RegularizePhi
        (SmoothSparsePhi.construct ⟨[], [], some "nodict", none⟩)
        (fun nm => if nm = "dict" then
          some ⟨[(⟨"c1", "pear"⟩, ⟨2⟩)]⟩ else none)
        ⟨["t0", "t1", "t2", "t3"],
         [⟨"c1", "apple"⟩, ⟨"c1", "pear"⟩], [[1, 2, 3, 4], [5, 6, 7, 8]]⟩
        ⟨["t0", "t1", "t2", "t3"],
         [⟨"c1", "apple"⟩, ⟨"c1", "pear"⟩], [[1, 2, 3, 4], [5, 6, 7, 8]]⟩
        ⟨["t0", "t1", "t2", "t3"],
         [⟨"c1", "apple"⟩, ⟨"c1", "pear"⟩],
         [[9, 9, 9, 9], [9, 9, 9, 9]]⟩).2 = true :=
  unresolved_dictionary_ignored _ _ _ _ _ "nodict" (by decide) (by decide)
